import Mathlib

/-!
Verification of the directory-listing utility `ls.js`.

The JavaScript source is shallowly embedded below: pure functions become
Lean functions on `Nat`/`Int`/`String`/`Bool`; the effectful directory
listing becomes a function over an abstract filesystem record whose
observable effects (collected items, stderr warnings, exit code) are
returned explicitly.  JavaScript numbers hold exact integers in the
ranges used here (file sizes, mode bits, millisecond timestamps), so
they are modelled as `Nat`/`Int`.
-/

namespace Ls

/-- Metadata record produced by `stat` for one entry, with the fields
`ls.js` reads: `size`, `mtime` (modelled by its millisecond value, the
only way the source consumes it, via `getTime()`), `mode`, and the four
type predicates `isDirectory()`, `isSymbolicLink()`, `isSocket()`,
`isFIFO()`. -/
structure Stats where
  size : Nat
  mtimeMs : Int
  mode : Nat
  isDirectory : Bool
  isSymbolicLink : Bool
  isSocket : Bool
  isFIFO : Bool
deriving DecidableEq, Repr

/-- The parsed option record (`values` from `parseArgs` in `ls.js`).
The JavaScript key `human-readable` is spelled `humanReadable`. -/
structure Opts where
  long : Bool
  all : Bool
  classify : Bool
  color : String
  size : Bool
  time : Bool
  reverse : Bool
  humanReadable : Bool
  help : Bool
deriving DecidableEq, Repr

/-- Defaults of the `options` table in `ls.js`: every boolean flag
defaults to `false` and `color` defaults to `"auto"`. -/
def defaultOpts : Opts :=
  { long := false, all := false, classify := false, color := "auto",
    size := false, time := false, reverse := false,
    humanReadable := false, help := false }

/-- One collected directory item: `{ name: entry, stats, fullPath }`. -/
structure Item where
  name : String
  stats : Stats
  fullPath : String
deriving DecidableEq, Repr

/-- The `colors` table of `ls.js` (ANSI escape sequences). -/
def colors.reset : String := "\x1b[0m"

def colors.directory : String := "\x1b[34m"

def colors.executable : String := "\x1b[32m"

def colors.symlink : String := "\x1b[36m"

def colors.socket : String := "\x1b[35m"

def colors.fifo : String := "\x1b[33m"

def colors.regular : String := "\x1b[0m"

/-- `String.prototype.startsWith` of JavaScript: prefix test on the
character sequence. -/
def startsWith (s p : String) : Bool :=
  p.data.isPrefixOf s.data

/-- The `perms` lookup table inside `formatPermissions`. -/
def perms : List String := ["---", "--x", "-w-", "-wx", "r--", "r-x", "rw-", "rwx"]

/-- `formatPermissions(mode)` from `ls.js`:
`(mode & 0o40000) ? 'd' : '-'` followed by `perms[(mode & 0o700) >> 6]`,
`perms[(mode & 0o070) >> 3]`, `perms[mode & 0o007]`, joined.  The masked
and shifted indices are always below 8, so the JavaScript array reads
never go out of bounds; `List.getD` with default `""` models `perms[i]`
totally. -/
def formatPermissions (mode : Nat) : String :=
  (if mode &&& 0o40000 ≠ 0 then "d" else "-")
    ++ perms.getD ((mode &&& 0o700) >>> 6) ""
    ++ perms.getD ((mode &&& 0o070) >>> 3) ""
    ++ perms.getD (mode &&& 0o007) ""

/-- `formatSize(size, humanReadable)` from `ls.js`.  The divisions are
by powers of two, which are exact on IEEE doubles for the integer sizes
involved, and `Math.round` rounds halves up; hence
`Math.round(size / d)` on a natural `size` equals `(size + d / 2) / d`
in integer arithmetic. -/
def formatSize (size : Nat) (humanReadable : Bool) : String :=
  if !humanReadable then
    toString size
  else if size < 1024 then
    toString size
  else if size < 1024 * 1024 then
    toString ((size + 512) / 1024) ++ "K"
  else if size < 1024 * 1024 * 1024 then
    toString ((size + 524288) / (1024 * 1024)) ++ "M"
  else if size < 1024 * 1024 * 1024 * 1024 then
    toString ((size + 536870912) / (1024 * 1024 * 1024)) ++ "G"
  else
    toString ((size + 549755813888) / (1024 * 1024 * 1024 * 1024)) ++ "T"

/-- `sortItems(items, opts)` from `ls.js`.  Each JavaScript comparator
sorts with a stable sort; `(a, b) => b.stats.size - a.stats.size` places
`a` before `b` exactly when `b.stats.size ≤ a.stats.size`, and likewise
for the time comparator.  `localeCompare` on names is modelled by
lexicographic string order.  After the primary sort, `opts.reverse`
reverses the whole array. -/
def sortItems (items : List Item) (opts : Opts) : List Item :=
  let sortedItems :=
    if opts.size then
      items.mergeSort (fun a b => decide (b.stats.size ≤ a.stats.size))
    else if opts.time then
      items.mergeSort (fun a b => decide (b.stats.mtimeMs ≤ a.stats.mtimeMs))
    else
      items.mergeSort (fun a b => decide (a.name ≤ b.name))
  if opts.reverse then sortedItems.reverse else sortedItems

/-- `getFileTypeIndicator(stats)` from `ls.js`.  `stats.mode & 0o111`
is truthy exactly when it is nonzero. -/
def getFileTypeIndicator (stats : Stats) : String :=
  if stats.isDirectory then "/"
  else if stats.isSymbolicLink then "@"
  else if stats.isSocket then "="
  else if stats.isFIFO then "|"
  else if stats.mode &&& 0o111 ≠ 0 then "*"
  else ""

/-- `getFileColor(stats)` from `ls.js`. -/
def getFileColor (stats : Stats) : String :=
  if stats.isDirectory then colors.directory
  else if stats.isSymbolicLink then colors.symlink
  else if stats.isSocket then colors.socket
  else if stats.isFIFO then colors.fifo
  else if stats.mode &&& 0o111 ≠ 0 then colors.executable
  else colors.regular

/-- `shouldUseColor(colorOption)` from `ls.js`.  The ambient
`process.stdout.isTTY` read is passed explicitly as `stdoutIsTTY`. -/
def shouldUseColor (colorOption : String) (stdoutIsTTY : Bool) : Bool :=
  if colorOption == "always" then true
  else if colorOption == "never" then false
  else stdoutIsTTY

/-- `join(directory, entry)` from `path`, for the plain
directory-plus-name case exercised by `ls.js`. -/
def join (directory entry : String) : String :=
  directory ++ "/" ++ entry

/-- Abstract filesystem capability: the result of `readdir(directory)`
and of `stat(path)` for each path, either a value or the `err.message`
text of the failure. -/
structure Dirfs where
  readdir : Except String (List String)
  stat : String → Except String Stats

/-- The warning `ls.js` prints to stderr when `stat` fails for one
entry: `ls: cannot access \x27${entry}\x27: ${err.message}`. -/
def accessWarning (entry msg : String) : String :=
  "ls: cannot access \x27" ++ entry ++ "\x27: " ++ msg

/-- The `for (const entry of entries)` loop of `listDirectory`: skip
hidden names unless `opts.all`, `stat` each survivor, push a warning and
continue on failure, otherwise push `{ name, stats, fullPath }`.
Returns the collected items and the emitted warnings, in order. -/
def collectLoop (statf : String → Except String Stats) (directory : String)
    (opts : Opts) : List String → List Item × List String
  | [] => ([], [])
  | entry :: rest =>
    if !opts.all && startsWith entry "." then
      collectLoop statf directory opts rest
    else
      match statf (join directory entry) with
      | Except.error msg =>
        let r := collectLoop statf directory opts rest
        (r.1, accessWarning entry msg :: r.2)
      | Except.ok stats =>
        let r := collectLoop statf directory opts rest
        ({ name := entry, stats := stats, fullPath := join directory entry } :: r.1, r.2)

/-- Observable outcome of `listDirectory`: the sorted items that the
render stage prints, the stderr warnings, and the process exit code. -/
structure ListResult where
  items : List Item
  warnings : List String
  exitCode : Nat
deriving Repr

/-- `listDirectory(directory, opts)` from `ls.js`, up to rendering: a
`readdir` failure is caught by the outer handler, which prints the
directory-level message and calls `process.exit(1)`; otherwise the entry
loop runs (per-entry `stat` failures are caught inside the loop and
never reach the outer handler), the items are sorted, and the process
later exits normally with code 0. -/
def listDirectory (fs : Dirfs) (directory : String) (opts : Opts) : ListResult :=
  match fs.readdir with
  | Except.error msg =>
    { items := [], warnings := [accessWarning directory msg], exitCode := 1 }
  | Except.ok entries =>
    let r := collectLoop fs.stat directory opts entries
    { items := sortItems r.1 opts, warnings := r.2, exitCode := 0 }

/-- `process.argv.slice(2).some(arg => arg.startsWith('-'))` from
`main()`, over the raw command-line argument list. -/
def userSpecifiedOptions (argv : List String) : Bool :=
  argv.any (fun arg => startsWith arg "-")

/-- `process.argv.slice(2).length === 1 && process.argv.slice(2)[0] === '-l'`
from `main()`. -/
def onlyLongOption (argv : List String) : Bool :=
  argv.length == 1 && argv.headD "" == "-l"

/-- The default-behavior override in `main()`: when no raw argument
starts with a dash, or the argument list is exactly `["-l"]`, force
`classify` to `true` and promote `color` from `"auto"` to `"always"`;
otherwise leave the options unchanged. -/
def applyDefaultOverride (argv : List String) (opts : Opts) : Opts :=
  if !userSpecifiedOptions argv || onlyLongOption argv then
    { opts with
      classify := true,
      color := if opts.color == "auto" then "always" else opts.color }
  else opts

/-- Modelled from the spec: the long-format flag of the CLI surface,
which the option table gives both a long spelling `--long` and a short
spelling `-l`. -/
def isLongFormatFlag (arg : String) : Bool :=
  arg == "--long" || arg == "-l"

/-- Modelled from the spec: the 3-bit-value-to-group mapping
`0 ↦ ---, 1 ↦ --x, 2 ↦ -w-, 3 ↦ -wx, 4 ↦ r--, 5 ↦ r-x, 6 ↦ rw-, 7 ↦ rwx`. -/
def permGroupSpec : Nat → String
  | 0 => "---"
  | 1 => "--x"
  | 2 => "-w-"
  | 3 => "-wx"
  | 4 => "r--"
  | 5 => "r-x"
  | 6 => "rw-"
  | 7 => "rwx"
  | _ => ""

/-- Modelled from the spec: the shape
`^[d-][r-][w-][x-][r-][w-][x-][r-][w-][x-]$` of a permission string,
as a decidable check on the character list. -/
def permShapeOk (s : String) : Bool :=
  match s.data with
  | [c0, c1, c2, c3, c4, c5, c6, c7, c8, c9] =>
    (c0 == 'd' || c0 == '-') &&
    (c1 == 'r' || c1 == '-') && (c2 == 'w' || c2 == '-') && (c3 == 'x' || c3 == '-') &&
    (c4 == 'r' || c4 == '-') && (c5 == 'w' || c5 == '-') && (c6 == 'x' || c6 == '-') &&
    (c7 == 'r' || c7 == '-') && (c8 == 'w' || c8 == '-') && (c9 == 'x' || c9 == '-')
  | _ => false

/-- A regular file named `run.exe` on a filesystem that reports no
execute permission: mode `0o644`, no type flag set. -/
def runExeStats : Stats :=
  { size := 100, mtimeMs := 0, mode := 0o644,
    isDirectory := false, isSymbolicLink := false,
    isSocket := false, isFIFO := false }

/-- An entry that is a directory and simultaneously carries every other
type flag and all execute bits. -/
def dirExecStats : Stats :=
  { size := 4096, mtimeMs := 0, mode := 0o40755,
    isDirectory := true, isSymbolicLink := true,
    isSocket := true, isFIFO := true }

/-- An ordinary readable file. -/
def goodStats : Stats :=
  { size := 500, mtimeMs := 1000, mode := 0o644,
    isDirectory := false, isSymbolicLink := false,
    isSocket := false, isFIFO := false }

/-- Sizes are non-increasing along the list. -/
def sizesNonIncreasing (l : List Item) : Prop :=
  l.Pairwise (fun a b => b.stats.size ≤ a.stats.size)

/-- Sizes are non-decreasing along the list. -/
def sizesNonDecreasing (l : List Item) : Prop :=
  l.Pairwise (fun a b => a.stats.size ≤ b.stats.size)

/-- Three items of sizes 500, 2000000 and 10. -/
def demoItems : List Item :=
  [ { name := "a.txt", stats := { goodStats with size := 500 }, fullPath := "./a.txt" },
    { name := "b.txt", stats := { goodStats with size := 2000000 }, fullPath := "./b.txt" },
    { name := "c.txt", stats := { goodStats with size := 10 }, fullPath := "./c.txt" } ]

/-- Options with size sorting selected. -/
def sizeOpts : Opts := { defaultOpts with size := true }

/-- Options with size sorting and reversal selected. -/
def sizeRevOpts : Opts := { defaultOpts with size := true, reverse := true }

/-- A directory holding `good`, `bad` and `.hidden`, where `stat`
fails with `EACCES` on `bad` and succeeds elsewhere. -/
def demoFs : Dirfs :=
  { readdir := Except.ok ["good", "bad", ".hidden"],
    stat := fun p => if p = "./bad" then Except.error "EACCES" else Except.ok goodStats }

end Ls

namespace Ls

theorem onlyLongOption_eq_true_iff (argv : List String) :
    onlyLongOption argv = true ↔ argv = ["-l"] := by
  cases argv with
  | nil => simp [onlyLongOption]
  | cons a t =>
    cases t with
    | nil => simp [onlyLongOption]
    | cons b u => simp [onlyLongOption]

/-- C1: the claim states that a non-directory, non-symlink, non-socket,
non-fifo entry without execute bits but whose name ends in `.exe`
(such as `run.exe`) is classified executable (`*`, green).  The code
of `getFileTypeIndicator` and `getFileColor` never consults the file
name: on such an entry (`runExeStats`, mode `0o644`) it returns the
empty indicator and the regular color, contradicting the claim and the
repository README section on Windows executable detection. -/
theorem run_exe_without_exec_bit_not_classified :
    getFileTypeIndicator runExeStats = "" ∧
    getFileTypeIndicator runExeStats ≠ "*" ∧
    getFileColor runExeStats = colors.regular ∧
    getFileColor runExeStats ≠ colors.executable := by
  refine ⟨rfl, ?_, rfl, ?_⟩ <;> decide

/-- C2 counterexample: `--long` is a spelling of the long-format flag,
yet an invocation whose argument list is exactly `["--long"]` receives
no default override: `classify` stays `false` and `color` stays
`"auto"`. -/
theorem long_spelling_alone_no_override :
    isLongFormatFlag "--long" = true ∧
    (applyDefaultOverride ["--long"] { defaultOpts with long := true }).classify = false ∧
    (applyDefaultOverride ["--long"] { defaultOpts with long := true }).color = "auto" := by
  refine ⟨rfl, ?_, ?_⟩ <;> decide

/-- C2 (amended): when no raw argument starts with a dash, or the
argument list is exactly `["-l"]` (the short spelling only), the
override forces `classify := true` and promotes `color` from `"auto"`
to `"always"` while leaving an explicit `color` choice alone; whenever
some argument starts with a dash and the list is not exactly `["-l"]`,
the options are returned unchanged. -/
theorem default_override_spec (argv : List String) (opts : Opts) :
    ((userSpecifiedOptions argv = false ∨ argv = ["-l"]) →
      (applyDefaultOverride argv opts).classify = true ∧
      (opts.color = "auto" → (applyDefaultOverride argv opts).color = "always") ∧
      (opts.color ≠ "auto" → (applyDefaultOverride argv opts).color = opts.color)) ∧
    ((userSpecifiedOptions argv = true ∧ argv ≠ ["-l"]) →
      applyDefaultOverride argv opts = opts) := by
  constructor
  · intro h
    have hcond : (!userSpecifiedOptions argv || onlyLongOption argv) = true := by
      rcases h with h | h
      · simp [h]
      · simp [(onlyLongOption_eq_true_iff argv).mpr h]
    simp only [applyDefaultOverride, hcond, if_true]
    refine ⟨trivial, ?_, ?_⟩
    · intro hc
      simp [hc]
    · intro hc
      simp [beq_eq_false_iff_ne.mpr hc]
  · rintro ⟨h1, h2⟩
    have hno : onlyLongOption argv = false := by
      cases hv : onlyLongOption argv
      · rfl
      · exact absurd ((onlyLongOption_eq_true_iff argv).mp hv) h2
    simp [applyDefaultOverride, h1, hno]

theorem default_override_spec_witness :
    (applyDefaultOverride ["-l"] { defaultOpts with long := true }).classify = true ∧
    applyDefaultOverride ["-a"] { defaultOpts with all := true } =
      { defaultOpts with all := true } :=
  ⟨((default_override_spec ["-l"] { defaultOpts with long := true }).1 (Or.inr rfl)).1,
    (default_override_spec ["-a"] { defaultOpts with all := true }).2 ⟨by decide, by decide⟩⟩

/-- C4: in human-readable mode `formatSize` maps 0 to `"0"`, 1023 to
`"1023"`, 1024 to `"1K"` and 1048576 to `"1M"`; in non-human-readable
mode it returns the exact decimal integer string of the byte count for
every size. -/
theorem formatSize_spec_values :
    formatSize 0 true = "0" ∧ formatSize 1023 true = "1023" ∧
    formatSize 1024 true = "1K" ∧ formatSize 1048576 true = "1M" ∧
    ∀ size : Nat, formatSize size false = Nat.repr size := by
  refine ⟨by decide, by decide, by decide, by decide, fun size => rfl⟩

/-- C8: an entry whose directory flag is set gets indicator `/` and the
directory (blue) color, whatever its other type flags and mode bits:
the directory check comes first in both classification functions. -/
theorem directory_priority (stats : Stats) (hdir : stats.isDirectory = true) :
    getFileTypeIndicator stats = "/" ∧ getFileColor stats = colors.directory := by
  simp [getFileTypeIndicator, getFileColor, hdir]

theorem directory_priority_witness :
    getFileTypeIndicator dirExecStats = "/" ∧
    getFileColor dirExecStats = colors.directory :=
  directory_priority dirExecStats rfl

/-- C10: any `colorOption` other than `"always"` and `"never"`
(for example `"bogus"`) makes `shouldUseColor` return the terminal
interactivity flag, exactly as `"auto"` does; no value is rejected. -/
theorem shouldUseColor_fallback_auto (s : String) (tty : Bool)
    (h1 : s ≠ "always") (h2 : s ≠ "never") :
    shouldUseColor s tty = tty ∧
    shouldUseColor s tty = shouldUseColor "auto" tty := by
  simp [shouldUseColor, beq_iff_eq, h1, h2]

theorem shouldUseColor_fallback_auto_witness :
    shouldUseColor "bogus" true = true ∧
    shouldUseColor "bogus" true = shouldUseColor "auto" true :=
  shouldUseColor_fallback_auto "bogus" true (by decide) (by decide)

theorem sortItems_size_sorted (items : List Item) :
    (items.mergeSort (fun a b => decide (b.stats.size ≤ a.stats.size))).Pairwise
      (fun a b => b.stats.size ≤ a.stats.size) := by
  have h := @List.sorted_mergeSort Item
    (fun a b : Item => decide (b.stats.size ≤ a.stats.size))
    (fun a b c hab hbc => by
      simp only [decide_eq_true_eq] at hab hbc ⊢
      omega)
    (fun a b => by
      simp only [Bool.or_eq_true, decide_eq_true_eq]
      omega)
    items
  exact h.imp (fun hab => by simpa using hab)

/-- C5: with the size key selected, `sortItems` yields non-increasing
sizes, and with `reverse` additionally set it yields non-decreasing
sizes. -/
theorem sortItems_size_order (items : List Item) (opts : Opts)
    (hsize : opts.size = true) :
    (opts.reverse = false → sizesNonIncreasing (sortItems items opts)) ∧
    (opts.reverse = true → sizesNonDecreasing (sortItems items opts)) := by
  have hmono := sortItems_size_sorted items
  constructor
  · intro hrev
    unfold sortItems
    simp only [hsize, if_true, hrev, Bool.false_eq_true, if_false]
    exact hmono
  · intro hrev
    unfold sortItems
    simp only [hsize, if_true, hrev]
    rw [sizesNonDecreasing, List.pairwise_reverse]
    exact hmono

theorem sortItems_size_order_witness :
    sizesNonIncreasing (sortItems demoItems sizeOpts) ∧
    sizesNonDecreasing (sortItems demoItems sizeRevOpts) :=
  ⟨(sortItems_size_order demoItems sizeOpts rfl).1 rfl,
    (sortItems_size_order demoItems sizeRevOpts rfl).2 rfl⟩

theorem testBit_const448 (j : Nat) : Nat.testBit 448 (6 + j) = decide (j < 3) := by
  match j with
  | 0 => decide
  | 1 => decide
  | 2 => decide
  | j + 3 =>
    have h9 : (448 : Nat) < 2 ^ (6 + (j + 3)) := by
      calc (448 : Nat) < 512 := by omega
        _ = 2 ^ 9 := by norm_num
        _ ≤ 2 ^ (6 + (j + 3)) := Nat.pow_le_pow_right (by omega) (by omega)
    rw [Nat.testBit_lt_two_pow h9]
    have hnl : ¬ (j + 3 < 3) := by omega
    simp [hnl]

theorem testBit_const56 (j : Nat) : Nat.testBit 56 (3 + j) = decide (j < 3) := by
  match j with
  | 0 => decide
  | 1 => decide
  | 2 => decide
  | j + 3 =>
    have h6 : (56 : Nat) < 2 ^ (3 + (j + 3)) := by
      calc (56 : Nat) < 64 := by omega
        _ = 2 ^ 6 := by norm_num
        _ ≤ 2 ^ (3 + (j + 3)) := Nat.pow_le_pow_right (by omega) (by omega)
    rw [Nat.testBit_lt_two_pow h6]
    have hnl : ¬ (j + 3 < 3) := by omega
    simp [hnl]

theorem and448_shift (mode : Nat) : (mode &&& 448) >>> 6 = mode / 64 % 8 := by
  have hmod : mode / 64 % 8 = (mode >>> 6) % 2 ^ 3 := by
    rw [Nat.shiftRight_eq_div_pow]
    norm_num
  apply Nat.eq_of_testBit_eq
  intro j
  rw [Nat.testBit_shiftRight, Nat.testBit_and, hmod, Nat.testBit_mod_two_pow,
    Nat.testBit_shiftRight, testBit_const448]
  exact Bool.and_comm _ _

theorem and56_shift (mode : Nat) : (mode &&& 56) >>> 3 = mode / 8 % 8 := by
  have hmod : mode / 8 % 8 = (mode >>> 3) % 2 ^ 3 := by
    rw [Nat.shiftRight_eq_div_pow]
    norm_num
  apply Nat.eq_of_testBit_eq
  intro j
  rw [Nat.testBit_shiftRight, Nat.testBit_and, hmod, Nat.testBit_mod_two_pow,
    Nat.testBit_shiftRight, testBit_const56]
  exact Bool.and_comm _ _

theorem and7_mod (mode : Nat) : mode &&& 7 = mode % 8 := by
  have h := Nat.and_pow_two_sub_one_eq_mod mode 3
  norm_num at h
  exact h

theorem perm_group_getD : ∀ i : Fin 8, perms.getD i.val "" = permGroupSpec i.val := by
  decide

theorem perm_shape_cases : ∀ (b : Bool) (i j k : Fin 8),
    ((cond b "d" "-") ++ permGroupSpec i.val ++ permGroupSpec j.val
        ++ permGroupSpec k.val).length = 10 ∧
    permShapeOk ((cond b "d" "-") ++ permGroupSpec i.val ++ permGroupSpec j.val
        ++ permGroupSpec k.val) = true := by
  decide

/-- C7: for every mode, the permission string is exactly 10 characters,
matches the shape of the regular expression from the spec, and equals
the directory-flag character followed by the three owner/group/other
groups obtained from their 3-bit values through the spec mapping. -/
theorem formatPermissions_shape (mode : Nat) :
    (formatPermissions mode).length = 10 ∧
    permShapeOk (formatPermissions mode) = true ∧
    formatPermissions mode =
      (if mode &&& 0o40000 ≠ 0 then "d" else "-")
        ++ permGroupSpec (mode / 64 % 8) ++ permGroupSpec (mode / 8 % 8)
        ++ permGroupSpec (mode % 8) := by
  have ha : mode / 64 % 8 < 8 := Nat.mod_lt _ (by omega)
  have hb : mode / 8 % 8 < 8 := Nat.mod_lt _ (by omega)
  have hc : mode % 8 < 8 := Nat.mod_lt _ (by omega)
  have hrew : formatPermissions mode =
      (if mode &&& 0o40000 ≠ 0 then "d" else "-")
        ++ permGroupSpec (mode / 64 % 8) ++ permGroupSpec (mode / 8 % 8)
        ++ permGroupSpec (mode % 8) := by
    unfold formatPermissions
    rw [and448_shift, and56_shift, and7_mod,
      perm_group_getD ⟨mode / 64 % 8, ha⟩,
      perm_group_getD ⟨mode / 8 % 8, hb⟩,
      perm_group_getD ⟨mode % 8, hc⟩]
  refine ⟨?_, ?_, hrew⟩
  · rw [hrew]
    by_cases hd : mode &&& 0o40000 ≠ 0
    · rw [if_pos hd]
      exact (perm_shape_cases true ⟨_, ha⟩ ⟨_, hb⟩ ⟨_, hc⟩).1
    · rw [if_neg hd]
      exact (perm_shape_cases false ⟨_, ha⟩ ⟨_, hb⟩ ⟨_, hc⟩).1
  · rw [hrew]
    by_cases hd : mode &&& 0o40000 ≠ 0
    · rw [if_pos hd]
      exact (perm_shape_cases true ⟨_, ha⟩ ⟨_, hb⟩ ⟨_, hc⟩).2
    · rw [if_neg hd]
      exact (perm_shape_cases false ⟨_, ha⟩ ⟨_, hb⟩ ⟨_, hc⟩).2

/-- C9: the first character of `formatPermissions mode` is `d` exactly
when bit `0o40000` of `mode` is set; since the socket file type
`0o140000` has that bit set, any mode whose type field is the socket
type is rendered with a leading `d` even though it is not a directory. -/
theorem formatPermissions_dirbit_first_char (mode : Nat) :
    ((formatPermissions mode).data.head? = some 'd' ↔ mode &&& 0o40000 ≠ 0) ∧
    (mode &&& 0o170000 = 0o140000 →
      (formatPermissions mode).data.head? = some 'd') := by
  have hiff : (formatPermissions mode).data.head? = some 'd' ↔ mode &&& 0o40000 ≠ 0 := by
    unfold formatPermissions
    by_cases hd : mode &&& 0o40000 ≠ 0
    · rw [if_pos hd]
      simp only [String.data_append]
      simpa using hd
    · rw [if_neg hd]
      simp only [String.data_append]
      constructor
      · intro h
        simp at h
      · intro h
        exact absurd h hd
  refine ⟨hiff, fun hft => hiff.mpr ?_⟩
  have h14 : mode.testBit 14 = true := by
    have hcong := congrArg (fun n => Nat.testBit n 14) hft
    simp only [Nat.testBit_and] at hcong
    have e1 : Nat.testBit 61440 14 = true := by decide
    have e2 : Nat.testBit 49152 14 = true := by decide
    rw [e1, e2, Bool.and_true] at hcong
    exact hcong
  intro hzero
  have hz : (mode &&& 16384).testBit 14 = false := by
    rw [hzero]
    exact Nat.zero_testBit 14
  have e3 : Nat.testBit 16384 14 = true := by decide
  rw [Nat.testBit_and, h14, e3] at hz
  simp at hz

theorem formatPermissions_dirbit_witness :
    (formatPermissions 0o140755).data.head? = some 'd' :=
  (formatPermissions_dirbit_first_char 0o140755).2 (by decide)

theorem mem_sortItems (a : Item) (l : List Item) (opts : Opts) :
    a ∈ sortItems l opts ↔ a ∈ l := by
  unfold sortItems
  cases opts.reverse <;> cases opts.size <;> cases opts.time <;> simp

theorem mem_collectLoop_items (statf : String → Except String Stats)
    (directory : String) (opts : Opts) (es : List String) (item : Item) :
    item ∈ (collectLoop statf directory opts es).1 ↔
      (item.name ∈ es ∧ (!opts.all && startsWith item.name ".") = false ∧
        statf (join directory item.name) = Except.ok item.stats ∧
        item.fullPath = join directory item.name) := by
  induction es with
  | nil => simp [collectLoop]
  | cons e rest ih =>
    simp only [collectLoop]
    by_cases hskip : (!opts.all && startsWith e ".") = true
    · rw [if_pos hskip, ih]
      constructor
      · rintro ⟨h1, h2, h3, h4⟩
        exact ⟨List.mem_cons_of_mem _ h1, h2, h3, h4⟩
      · rintro ⟨h1, h2, h3, h4⟩
        rcases List.mem_cons.mp h1 with he | he
        · rw [he] at h2
          rw [hskip] at h2
          cases h2
        · exact ⟨he, h2, h3, h4⟩
    · rw [if_neg hskip]
      have hskf : (!opts.all && startsWith e ".") = false :=
        Bool.eq_false_iff.mpr hskip
      cases hstat : statf (join directory e) with
      | error msg =>
        simp only [hstat, ih]
        constructor
        · rintro ⟨h1, h2, h3, h4⟩
          exact ⟨List.mem_cons_of_mem _ h1, h2, h3, h4⟩
        · rintro ⟨h1, h2, h3, h4⟩
          rcases List.mem_cons.mp h1 with he | he
          · rw [he] at h3
            rw [hstat] at h3
            cases h3
          · exact ⟨he, h2, h3, h4⟩
      | ok stats =>
        simp only [hstat, List.mem_cons, ih]
        constructor
        · rintro (he | ⟨h1, h2, h3, h4⟩)
          · rw [he]
            exact ⟨Or.inl rfl, hskf, hstat, rfl⟩
          · exact ⟨Or.inr h1, h2, h3, h4⟩
        · rintro ⟨h1, h2, h3, h4⟩
          rcases h1 with he | he
          · left
            cases item with
            | mk n s f =>
              simp only at he h2 h3 h4
              subst he
              subst h4
              rw [hstat] at h3
              cases h3
              rfl
          · exact Or.inr ⟨he, h2, h3, h4⟩

theorem warning_mem_collectLoop (statf : String → Except String Stats)
    (directory : String) (opts : Opts) (es : List String) (e msg : String)
    (hmem : e ∈ es) (hskip : (!opts.all && startsWith e ".") = false)
    (hfail : statf (join directory e) = Except.error msg) :
    accessWarning e msg ∈ (collectLoop statf directory opts es).2 := by
  induction es with
  | nil => cases hmem
  | cons a rest ih =>
    simp only [collectLoop]
    rcases List.mem_cons.mp hmem with he | he
    · subst he
      rw [if_neg (by rw [hskip]; exact Bool.false_ne_true)]
      simp only [hfail]
      exact List.mem_cons_self _ _
    · by_cases hs : (!opts.all && startsWith a ".") = true
      · rw [if_pos hs]
        exact ih he
      · rw [if_neg hs]
        cases hstat : statf (join directory a) with
        | error m =>
          simp only [hstat]
          exact List.mem_cons_of_mem _ (ih he)
        | ok s =>
          simp only [hstat]
          exact ih he

/-- C3: when the directory read succeeds but `stat` fails on one
member, the warning naming that member and the cause appears among the
emitted warnings, no result item carries that name, every other
non-hidden member with a successful `stat` is still collected, and the
exit code stays 0. -/
theorem entry_stat_failure_tolerance (fs : Dirfs) (directory : String)
    (opts : Opts) (entries : List String) (entry msg : String)
    (hread : fs.readdir = Except.ok entries)
    (hmem : entry ∈ entries)
    (hskip : (!opts.all && startsWith entry ".") = false)
    (hfail : fs.stat (join directory entry) = Except.error msg) :
    accessWarning entry msg ∈ (listDirectory fs directory opts).warnings ∧
    (∀ item ∈ (listDirectory fs directory opts).items, item.name ≠ entry) ∧
    (∀ e ∈ entries, (!opts.all && startsWith e ".") = false → ∀ s,
      fs.stat (join directory e) = Except.ok s →
        { name := e, stats := s, fullPath := join directory e } ∈
          (listDirectory fs directory opts).items) ∧
    (listDirectory fs directory opts).exitCode = 0 := by
  have hl : listDirectory fs directory opts =
      { items := sortItems (collectLoop fs.stat directory opts entries).1 opts,
        warnings := (collectLoop fs.stat directory opts entries).2,
        exitCode := 0 } := by
    simp only [listDirectory, hread]
  rw [hl]
  refine ⟨?_, ?_, ?_, rfl⟩
  · exact warning_mem_collectLoop fs.stat directory opts entries entry msg hmem hskip hfail
  · intro item hitem hname
    have hc := (mem_collectLoop_items fs.stat directory opts entries item).mp
      ((mem_sortItems item _ opts).mp hitem)
    rw [hname] at hc
    rw [hfail] at hc
    cases hc.2.2.1
  · intro e he hesk s hs
    exact (mem_sortItems _ _ opts).mpr
      ((mem_collectLoop_items fs.stat directory opts entries _).mpr
        ⟨he, hesk, hs, rfl⟩)

theorem entry_stat_failure_tolerance_witness :
    accessWarning "bad" "EACCES" ∈ (listDirectory demoFs "." defaultOpts).warnings ∧
    (listDirectory demoFs "." defaultOpts).exitCode = 0 ∧
    { name := "good", stats := goodStats, fullPath := join "." "good" } ∈
      (listDirectory demoFs "." defaultOpts).items := by
  have h := entry_stat_failure_tolerance demoFs "." defaultOpts
    ["good", "bad", ".hidden"] "bad" "EACCES" rfl (by decide) (by decide) rfl
  exact ⟨h.1, h.2.2.2, h.2.2.1 "good" (by decide) (by decide) goodStats rfl⟩

/-- C6: when the directory read succeeds, no collected item has a name
starting with a dot unless `showHidden` (`opts.all`) is set, and every
member whose name does not start with a dot and whose `stat` succeeds
is collected. -/
theorem hidden_filtering (fs : Dirfs) (directory : String) (opts : Opts)
    (entries : List String) (hread : fs.readdir = Except.ok entries) :
    (opts.all = false → ∀ item ∈ (listDirectory fs directory opts).items,
      startsWith item.name "." = false) ∧
    (∀ e ∈ entries, startsWith e "." = false → ∀ s,
      fs.stat (join directory e) = Except.ok s →
        { name := e, stats := s, fullPath := join directory e } ∈
          (listDirectory fs directory opts).items) := by
  have hl : listDirectory fs directory opts =
      { items := sortItems (collectLoop fs.stat directory opts entries).1 opts,
        warnings := (collectLoop fs.stat directory opts entries).2,
        exitCode := 0 } := by
    simp only [listDirectory, hread]
  rw [hl]
  constructor
  · intro hall item hitem
    have hc := (mem_collectLoop_items fs.stat directory opts entries item).mp
      ((mem_sortItems item _ opts).mp hitem)
    have h2 := hc.2.1
    rw [hall] at h2
    simpa using h2
  · intro e he hdot s hs
    refine (mem_sortItems _ _ opts).mpr
      ((mem_collectLoop_items fs.stat directory opts entries _).mpr
        ⟨he, ?_, hs, rfl⟩)
    simp [hdot]

theorem hidden_filtering_witness :
    { name := "good", stats := goodStats, fullPath := join "." "good" } ∈
      (listDirectory demoFs "." defaultOpts).items :=
  (hidden_filtering demoFs "." defaultOpts ["good", "bad", ".hidden"] rfl).2
    "good" (by decide) (by decide) goodStats rfl

end Ls
